import Mathlib

/-!
Verification development for the HDB resale-price notebook (src/HDB.ipynb).

The notebook is a single-pass pipeline: parse the `month` and
`remaining_lease` text columns into numbers, ordinal-encode
`storey_range` against a fixed 17-label vocabulary, one-hot encode
`town` / `flat_type` / `flat_model` with vocabularies learned at fit
time, drop the raw categorical columns, split into train/test, fit a
linear regression and finally transform one new record (`myflat`) and
predict its price after reindexing its columns to the training order.

This file shallowly embeds those transformation steps: Python string
operations are modelled on `List Char`, fallible steps return `Option`
(a `none` is the Python exception surfaced by the corresponding cell),
and the per-row pipeline is explicit record-to-record translation.
-/

/-- ASCII digit test: the digit set accepted by Python `int()` on ASCII text. -/
def isDigitC (c : Char) : Bool := 48 ≤ c.toNat && c.toNat ≤ 57

/-- The whitespace class of Python `str.split()` with no argument and of
`int()`'s surrounding-whitespace stripping. -/
def isPySpace (c : Char) : Bool :=
  (c == ' ') || (c == '\t') || (c == '\n') || (c == '\r') || (c == '\x0b') || (c == '\x0c')

/-- Python `str.split(sep)` generalised over a separator predicate: cut at every
separator character, keeping empty fields (so `"a-".split("-") = ["a", ""]` and
`"".split("-") = [""]`). -/
def pySplit (p : Char → Bool) : List Char → List (List Char)
  | [] => [[]]
  | c :: cs =>
    if p c then [] :: pySplit p cs
    else
      match pySplit p cs with
      | [] => [[c]]
      | t :: ts => (c :: t) :: ts

/-- Python `str.split()` with no argument: split on whitespace and drop the
empty fields (equivalently, the maximal non-whitespace runs). -/
def pySplitWS (l : List Char) : List (List Char) :=
  (pySplit isPySpace l).filter (fun t => !t.isEmpty)

/-- Value of a string of decimal digits. -/
def digitsValN (l : List Char) : Nat := l.foldl (fun a c => 10 * a + (c.toNat - 48)) 0

/-- Strip leading and trailing Python whitespace (what `int()` does before
reading the number). -/
def stripPyWS (l : List Char) : List Char :=
  ((l.dropWhile isPySpace).reverse.dropWhile isPySpace).reverse

/-- Python `int(s)` on a string: optional surrounding whitespace, an optional
sign, then a nonempty run of decimal digits; anything else raises `ValueError`
(modelled as `none`). -/
def pyInt? (l : List Char) : Option Int :=
  let s := stripPyWS l
  if s = [] then none
  else if s.head? = some '-' then
    if s.tail ≠ [] ∧ s.tail.all isDigitC then some (-(digitsValN s.tail : Int)) else none
  else if s.head? = some '+' then
    if s.tail ≠ [] ∧ s.tail.all isDigitC then some ((digitsValN s.tail : Int)) else none
  else if s.all isDigitC then some ((digitsValN s : Int)) else none

/-- Python negative indexing `l[-2]`: the second element from the end, an
`IndexError` (modelled as `none`) when the list has fewer than two elements. -/
def pyIdxNeg2 {α : Type} (l : List α) : Option α :=
  if 2 ≤ l.length then l.get? (l.length - 2) else none

/-- Notebook cells 17 and 44, first lambda:
`int(x.split()[0])` applied to `remaining_lease`. -/
def years_remaining (s : List Char) : Option Int :=
  (pySplitWS s).head?.bind pyInt?

/-- Notebook cells 17 and 44, second lambda:
`int(x.split(" ")[-2])` applied to `remaining_lease`. -/
def months_remaining (s : List Char) : Option Int :=
  (pyIdxNeg2 (pySplit (fun c => c == ' ') s)).bind pyInt?

/-- The pair of lease lambdas from cells 17 (training) and 44 (prediction);
both columns must be computed for the cell to succeed. -/
def parseLease (s : List Char) : Option (Int × Int) :=
  (years_remaining s).bind fun y => (months_remaining s).bind fun m => some (y, m)

/-- `pandas.Timestamp` month-resolution representability bound: a month
`y`-`m` is representable iff it lies between 1677-10 and 2262-04 (the
nanosecond epoch range); `pd.to_datetime` raises outside it. -/
def tsOK (y m : Nat) : Bool :=
  (decide (1677 < y) || (y == 1677 && decide (10 ≤ m))) &&
  (decide (y < 2262) || (y == 2262 && decide (m ≤ 4)))

/-- Notebook cell 15: `pd.to_datetime(df['month'], format="%Y-%m")` followed by
`.dt.year` / `.dt.month`.  With an explicit format the parse is strptime-like:
`%Y` is exactly four digits, the literal `-`, then `%m` is `[1-9]`, `0[1-9]` or
`1[0-2]` (for a two-digit month: digits whose first digit is at most `'1'`
(code 49) and whose value is in 1..12), with nothing left over, and the result
must be a representable Timestamp. -/
def toDatetimeYM (l : List Char) : Option (Int × Int) :=
  match l with
  | a :: b :: c :: d :: sep :: rest =>
    if sep = '-' ∧ isDigitC a ∧ isDigitC b ∧ isDigitC c ∧ isDigitC d then
      let y := digitsValN [a, b, c, d]
      match rest with
      | [m1] =>
        if isDigitC m1 ∧ 1 ≤ digitsValN [m1] ∧ tsOK y (digitsValN [m1]) then
          some ((y : Int), (digitsValN [m1] : Int))
        else none
      | [m1, m2] =>
        if isDigitC m1 ∧ isDigitC m2 ∧ m1.toNat ≤ 49 ∧
            1 ≤ digitsValN [m1, m2] ∧ digitsValN [m1, m2] ≤ 12 ∧
            tsOK y (digitsValN [m1, m2]) then
          some ((y : Int), (digitsValN [m1, m2] : Int))
        else none
      | _ => none
    else none
  | _ => none

/-- Notebook cell 43: `int(x.split("-")[0])` and `int(x.split("-")[-1])`
applied to the prediction record's `month`. -/
def predSaleYearMonth (s : List Char) : Option (Int × Int) :=
  let parts := pySplit (fun c => c == '-') s
  (parts.head?.bind pyInt?).bind fun y =>
    (parts.getLast?.bind pyInt?).bind fun m => some (y, m)

/-- Notebook cell 19: the fixed, externally specified storey-range vocabulary
handed to `OrdinalEncoder(categories=[storey_cat])`. -/
def storey_cat : List String :=
  ["01 TO 03", "04 TO 06", "07 TO 09", "10 TO 12", "13 TO 15", "16 TO 18",
   "19 TO 21", "22 TO 24", "25 TO 27", "28 TO 30", "31 TO 33", "34 TO 36",
   "37 TO 39", "40 TO 42", "43 TO 45", "46 TO 48", "49 TO 51"]

/-- Position of a value in a category list (the integer code an sklearn
encoder assigns by position), `none` when absent. -/
def listIndex (v : String) : List String → Option Nat
  | [] => none
  | c :: cs => if c = v then some 0 else (listIndex v cs).map (· + 1)

/-- `OrdinalEncoder(categories=[storey_cat], dtype=int)` `.transform` of one
value: its position in the fixed vocabulary, a `ValueError` (`none`) for a
value outside it.  Used by `fit_transform` on every training row (cell 19) and
by `transform` on the prediction row (cell 43). -/
def oeTransform (v : String) : Option Nat := listIndex v storey_cat

/-- Lexicographic comparison of character lists by code point (numpy's
ordering of the byte strings an `OneHotEncoder` sorts). -/
def charsLe : List Char → List Char → Bool
  | [], _ => true
  | _ :: _, [] => false
  | a :: as, b :: bs =>
    decide (a.toNat < b.toNat) || ((a.toNat == b.toNat) && charsLe as bs)

/-- Lexicographic string order. -/
def strLe (a b : String) : Bool := charsLe a.toList b.toList

/-- Insert a string into a sorted list (ascending). -/
def insertSorted (x : String) : List String → List String
  | [] => [x]
  | y :: ys => if strLe x y then x :: y :: ys else y :: insertSorted x ys

/-- The vocabulary sklearn's `OneHotEncoder.fit` records for one column: the
distinct observed values in sorted order (`np.unique`). -/
def fitVocab (l : List String) : List String := l.dedup.foldr insertSorted []

/-- `OneHotEncoder.transform` of a single value against a fitted vocabulary:
one indicator per category in vocabulary order; with the default
`handle_unknown='error'` an unseen value raises `ValueError` (`none`) and is
never encoded as a zero vector. -/
def oheTransform (vocab : List String) (v : String) : Option (List Nat) :=
  if v ∈ vocab then some (vocab.map fun u => if u = v then 1 else 0) else none

-- Basic facts about the split model.

theorem pySplit_ne_nil (p : Char → Bool) (l : List Char) : pySplit p l ≠ [] := by
  cases l with
  | nil => simp [pySplit]
  | cons c cs =>
    simp only [pySplit]
    split
    · simp
    · cases h : pySplit p cs <;> simp

theorem pySplit_no_sep (p : Char → Bool) (l : List Char)
    (h : ∀ c ∈ l, p c = false) : pySplit p l = [l] := by
  induction l with
  | nil => rfl
  | cons c cs ih =>
    have hc : p c = false := h c (List.mem_cons_self c cs)
    have ih' := ih (fun x hx => h x (List.mem_cons_of_mem c hx))
    simp [pySplit, hc, ih']

theorem pySplit_append (p : Char → Bool) (a b : List Char) (x : Char)
    (ha : ∀ c ∈ a, p c = false) (hx : p x = true) :
    pySplit p (a ++ x :: b) = a :: pySplit p b := by
  induction a with
  | nil => simp [pySplit, hx]
  | cons c cs ih =>
    have hc : p c = false := ha c (List.mem_cons_self c cs)
    have ih' := ih (fun y hy => ha y (List.mem_cons_of_mem c hy))
    simp only [List.cons_append, pySplit, hc, List.append_eq]
    rw [ih']
    simp

theorem stripPyWS_of_no_ws (l : List Char) (h : ∀ c ∈ l, isPySpace c = false) :
    stripPyWS l = l := by
  have h1 : l.dropWhile isPySpace = l := by
    cases l with
    | nil => rfl
    | cons c cs => simp [List.dropWhile, h c (List.mem_cons_self c cs)]
  have h2 : l.reverse.dropWhile isPySpace = l.reverse := by
    cases hr : l.reverse with
    | nil => rfl
    | cons c cs =>
      have hc : c ∈ l := by
        have : c ∈ l.reverse := by rw [hr]; exact List.mem_cons_self c cs
        simpa using this
      simp [List.dropWhile, h c hc]
  simp [stripPyWS, h1, h2]

theorem isDigitC_not_space (c : Char) (h : isDigitC c = true) : isPySpace c = false := by
  have hge : 48 ≤ c.toNat := by
    simp only [isDigitC, Bool.and_eq_true, decide_eq_true_eq] at h
    exact h.1
  have hle : c.toNat ≤ 57 := by
    simp only [isDigitC, Bool.and_eq_true, decide_eq_true_eq] at h
    exact h.2
  simp only [isPySpace, Bool.or_eq_false_iff, beq_eq_false_iff_ne, ne_eq]
  refine ⟨⟨⟨⟨⟨?_, ?_⟩, ?_⟩, ?_⟩, ?_⟩, ?_⟩ <;>
    · intro hc; subst hc; simp at hge hle

/-- `int()` on a nonempty all-digit token returns its decimal value. -/
theorem pyInt?_digits (l : List Char) (hne : l ≠ [])
    (hd : ∀ c ∈ l, isDigitC c = true) : pyInt? l = some ((digitsValN l : Int)) := by
  have hstrip : stripPyWS l = l :=
    stripPyWS_of_no_ws l (fun c hc => isDigitC_not_space c (hd c hc))
  cases l with
  | nil => exact absurd rfl hne
  | cons c cs =>
    have hc : isDigitC c = true := hd c (List.mem_cons_self c cs)
    have hcm : c ≠ '-' := by
      intro h; subst h; simp [isDigitC] at hc
    have hcp : c ≠ '+' := by
      intro h; subst h; simp [isDigitC] at hc
    simp only [pyInt?, hstrip]
    rw [if_neg (by simp), if_neg (by simp [hcm]), if_neg (by simp [hcp]),
      if_pos (by simpa using hd)]

/-- A raw row of the training corpus (the columns of
`resale-flat-prices-...-from-jan-2017-onwards.csv`).  Monetary and area
values are modelled as rationals. -/
structure RawRecord where
  month : String
  town : String
  flat_type : String
  block : String
  street_name : String
  storey_range : String
  floor_area_sqm : ℚ
  flat_model : String
  lease_commence_date : Int
  remaining_lease : String
  resale_price : ℚ
deriving DecidableEq

/-- The state recorded by `OneHotEncoder.fit` in cell 21: one sorted
vocabulary per encoded column, in the order `ohe_features = ['town',
'flat_type', 'flat_model']`. -/
structure FittedOHE where
  townCats : List String
  flatTypeCats : List String
  flatModelCats : List String
deriving DecidableEq

/-- Fitting the one-hot encoder on the training corpus (cell 21,
`ohe.fit_transform(df[ohe_features])`, vocabulary part). -/
def fitOHE (corpus : List RawRecord) : FittedOHE :=
  ⟨fitVocab (corpus.map RawRecord.town),
   fitVocab (corpus.map RawRecord.flat_type),
   fitVocab (corpus.map RawRecord.flat_model)⟩

/-- A fully engineered training row: what is left of a `RawRecord` after
cells 15, 17, 19, 21 and the drops of cell 37.  `resale_price` is still
present; cell 38 separates it out as the label. -/
structure FeatureRow where
  floor_area_sqm : ℚ
  resale_price : ℚ
  sale_year : Int
  sale_month : Int
  years_remaining : Int
  months_remaining : Int
  storey : Nat
  townInd : List Nat
  flatTypeInd : List Nat
  flatModelInd : List Nat
deriving DecidableEq

/-- The per-row content of training cells 15 (month parse), 17 (lease parse),
19 (ordinal encode), 21 (one-hot encode) and 37 (drop of the raw
categorical/identifier columns).  Any failing step aborts the pipeline. -/
def engineerTrainRow (st : FittedOHE) (r : RawRecord) : Option FeatureRow :=
  (toDatetimeYM r.month.toList).bind fun ym =>
  (years_remaining r.remaining_lease.toList).bind fun yr =>
  (months_remaining r.remaining_lease.toList).bind fun mr =>
  (oeTransform r.storey_range).bind fun sv =>
  (oheTransform st.townCats r.town).bind fun ti =>
  (oheTransform st.flatTypeCats r.flat_type).bind fun fti =>
  (oheTransform st.flatModelCats r.flat_model).bind fun fmi =>
  some { floor_area_sqm := r.floor_area_sqm, resale_price := r.resale_price,
         sale_year := ym.1, sale_month := ym.2, years_remaining := yr,
         months_remaining := mr, storey := sv, townInd := ti,
         flatTypeInd := fti, flatModelInd := fmi }

/-- Row-by-row engineering of the whole corpus under one fitted state. -/
def engineerRows (st : FittedOHE) : List RawRecord → Option (List FeatureRow)
  | [] => some []
  | r :: rs =>
    (engineerTrainRow st r).bind fun fr =>
    (engineerRows st rs).bind fun frs => some (fr :: frs)

/-- The training feature matrix (rows still carrying `resale_price`): fit the
one-hot vocabularies on the corpus, then transform every record. -/
def buildFeatures (corpus : List RawRecord) : Option (List FeatureRow) :=
  engineerRows (fitOHE corpus) corpus

/-- A raw prediction record (`myflat.csv`): the same schema minus
`resale_price`. -/
structure PredRecord where
  month : String
  town : String
  flat_type : String
  block : String
  street_name : String
  storey_range : String
  floor_area_sqm : ℚ
  flat_model : String
  lease_commence_date : Int
  remaining_lease : String
deriving DecidableEq

/-- The engineered prediction row after cells 43-45 (before the column
reindex of cell 47). -/
structure PredFeatureRow where
  floor_area_sqm : ℚ
  sale_year : Int
  sale_month : Int
  years_remaining : Int
  months_remaining : Int
  storey : Nat
  townInd : List Nat
  flatTypeInd : List Nat
  flatModelInd : List Nat
deriving DecidableEq

/-- The per-row content of prediction cells 43 (month split lambdas, ordinal
transform), 44 (one-hot transform, lease lambdas) and 45 (drops), using the
encoders fitted on the training corpus.  Any failing step aborts. -/
def engineerPredictRow (st : FittedOHE) (r : PredRecord) : Option PredFeatureRow :=
  (predSaleYearMonth r.month.toList).bind fun ym =>
  (oeTransform r.storey_range).bind fun sv =>
  (oheTransform st.townCats r.town).bind fun ti =>
  (oheTransform st.flatTypeCats r.flat_type).bind fun fti =>
  (oheTransform st.flatModelCats r.flat_model).bind fun fmi =>
  (years_remaining r.remaining_lease.toList).bind fun yr =>
  (months_remaining r.remaining_lease.toList).bind fun mr =>
  some { floor_area_sqm := r.floor_area_sqm, sale_year := ym.1,
         sale_month := ym.2, years_remaining := yr, months_remaining := mr,
         storey := sv, townInd := ti, flatTypeInd := fti, flatModelInd := fmi }

/-- Cells 46-47 at the level of column-name lists: `dfCols` are the training
dataframe's columns (label included), `flatCols` the assembled prediction
row's columns.  Cell 46 asserts `len(df.columns) == len(myflat.columns) + 1`;
cell 47's `myflat[X_train.columns]` raises `KeyError` when a training feature
column is absent, and otherwise returns the columns reindexed into exactly
the training order (`X_train` is `df` minus the `resale_price` label,
cell 38). -/
def predictGate (dfCols flatCols : List String) : Option (List String) :=
  if dfCols.length = flatCols.length + 1 then
    if (dfCols.erase "resale_price").all (fun c => flatCols.contains c) then
      some (dfCols.erase "resale_price")
    else none
  else none

/-- The argument record of an sklearn `train_test_split` call. -/
structure TTSCall where
  test_size : Option ℚ
  random_state : Option Nat
deriving DecidableEq

/-- The rational 1/4 given by its reduced numerator and denominator. -/
def quarter : ℚ := ⟨1, 4, by decide, by simp [Nat.Coprime]⟩

/-- Cell 38: `train_test_split(..., test_size=0.25)` — an explicit quarter
held out, no `random_state` supplied. -/
def notebookTTS : TTSCall := { test_size := some quarter, random_state := none }

/-- Ceiling division `⌈a / b⌉` via floor division of the negation. -/
def ceilDivInt (a : Int) (b : Nat) : Int := -(Int.fdiv (-a) (b : Int))

/-- sklearn's held-out size: `ceil(test_size * n)`, with `test_size`
defaulting to 0.25 when unset. -/
def nTest (call : TTSCall) (n : Nat) : Nat :=
  let ts := call.test_size.getD quarter
  (ceilDivInt (ts.num * (n : Int)) ts.den).toNat

/-- sklearn's split with `random_state=None`: the permutation of row indices
is drawn from the global (unseeded) RNG — here an explicit input — and the
first `nTest` indices form the held-out set. -/
def ttsSplit (call : TTSCall) (globalPerm : List Nat) (n : Nat) :
    List Nat × List Nat :=
  (globalPerm.take (nTest call n), globalPerm.drop (nTest call n))

/-- Failure modes observable in the notebook when a null reaches cell 17:
pandas parses a missing value as `NaN` (a float), and `float.split` raises
`AttributeError`; Python's `int()` on a bad token raises `ValueError`.  A
`MissingValueError` naming the offending columns is what the specification
prescribes; the notebook has no step that raises it. -/
inductive PipeError where
  | missingValue (cols : List String)
  | attributeError
  | valueError
deriving DecidableEq

/-- Classifier for the error the specification prescribes for nulls. -/
def isMissingValueErr {α : Type} : Except PipeError α → Bool
  | Except.error (PipeError.missingValue _) => true
  | _ => false

/-- Cell 17 applied to one (possibly null) `remaining_lease` value: a null is
a float `NaN`, so `.split` raises `AttributeError`; a malformed string raises
`ValueError` from `int()`. -/
def leaseCell (v : Option String) : Except PipeError (Int × Int) :=
  match v with
  | none => Except.error PipeError.attributeError
  | some s =>
    match parseLease s.toList with
    | some p => Except.ok p
    | none => Except.error PipeError.valueError

/-- Cell 17 over the whole (possibly null-carrying) column. -/
def engineerLeaseColumn : List (Option String) → Except PipeError (List (Int × Int))
  | [] => Except.ok []
  | v :: rest =>
    match leaseCell v with
    | Except.error e => Except.error e
    | Except.ok p =>
      match engineerLeaseColumn rest with
      | Except.error e => Except.error e
      | Except.ok ps => Except.ok (p :: ps)

/-- Cell 25, `df.isna().sum()` for one column: a pure observation that counts
nulls (1 per null, summed); it raises nothing and its value is only
displayed. -/
def isnaSum (col : List (Option String)) : Nat :=
  (col.map (fun v => if v.isNone then 1 else 0)).sum

-- Supporting lemmas.

theorem not_space_char_of_not_pyspace (c : Char) (h : isPySpace c = false) :
    (c == ' ') = false := by
  simp only [isPySpace, Bool.or_eq_false_iff] at h
  exact h.1.1.1.1.1

theorem pySplitWS_four (t1 t2 t3 t4 : List Char)
    (h1 : ∀ c ∈ t1, isPySpace c = false) (h2 : ∀ c ∈ t2, isPySpace c = false)
    (h3 : ∀ c ∈ t3, isPySpace c = false) (h4 : ∀ c ∈ t4, isPySpace c = false) :
    pySplit isPySpace (t1 ++ ' ' :: (t2 ++ ' ' :: (t3 ++ ' ' :: t4))) =
      [t1, t2, t3, t4] := by
  rw [pySplit_append isPySpace t1 _ ' ' h1 (by decide),
    pySplit_append isPySpace t2 _ ' ' h2 (by decide),
    pySplit_append isPySpace t3 _ ' ' h3 (by decide),
    pySplit_no_sep isPySpace t4 h4]

theorem pySplitSp_four (t1 t2 t3 t4 : List Char)
    (h1 : ∀ c ∈ t1, isPySpace c = false) (h2 : ∀ c ∈ t2, isPySpace c = false)
    (h3 : ∀ c ∈ t3, isPySpace c = false) (h4 : ∀ c ∈ t4, isPySpace c = false) :
    pySplit (fun c => c == ' ') (t1 ++ ' ' :: (t2 ++ ' ' :: (t3 ++ ' ' :: t4))) =
      [t1, t2, t3, t4] := by
  rw [pySplit_append _ t1 _ ' ' (fun c hc => not_space_char_of_not_pyspace c (h1 c hc)) (by decide),
    pySplit_append _ t2 _ ' ' (fun c hc => not_space_char_of_not_pyspace c (h2 c hc)) (by decide),
    pySplit_append _ t3 _ ' ' (fun c hc => not_space_char_of_not_pyspace c (h3 c hc)) (by decide),
    pySplit_no_sep _ t4 (fun c hc => not_space_char_of_not_pyspace c (h4 c hc))]

theorem pySplitWS_two (t1 t2 : List Char)
    (h1 : ∀ c ∈ t1, isPySpace c = false) (h2 : ∀ c ∈ t2, isPySpace c = false) :
    pySplit isPySpace (t1 ++ ' ' :: t2) = [t1, t2] := by
  rw [pySplit_append isPySpace t1 _ ' ' h1 (by decide), pySplit_no_sep isPySpace t2 h2]

theorem pySplitSp_two (t1 t2 : List Char)
    (h1 : ∀ c ∈ t1, isPySpace c = false) (h2 : ∀ c ∈ t2, isPySpace c = false) :
    pySplit (fun c => c == ' ') (t1 ++ ' ' :: t2) = [t1, t2] := by
  rw [pySplit_append _ t1 _ ' ' (fun c hc => not_space_char_of_not_pyspace c (h1 c hc)) (by decide),
    pySplit_no_sep _ t2 (fun c hc => not_space_char_of_not_pyspace c (h2 c hc))]

/--
C2 is refuted on the "<N> years" form: the notebook computes
`months_remaining` as `int(x.split(" ")[-2])`, and for `"99 years"` the
second-to-last space field is `"99"` itself, so months_remaining is 99,
not the 0 the claim requires.
-/
theorem c2_counterexample :
    parseLease ("99 years".toList) = some (99, 99) ∧
    parseLease ("99 years".toList) ≠ some (99, 0) := by decide

/--
C2 (amended): for every valid `"<N> years <M> months"` string the lease
lambdas of cells 17 and 44 yield `years_remaining = N` and
`months_remaining = M`; but for a valid `"<N> years"` string (no months
part) they yield `years_remaining = N` and `months_remaining = N` — the
year token, being the second-to-last space field, is reused — not 0.
-/
theorem c2_lease_parse :
    (∀ (yTok mTok : List Char) (Y M : Int),
      yTok ≠ [] → mTok ≠ [] →
      (∀ c ∈ yTok, isPySpace c = false) → (∀ c ∈ mTok, isPySpace c = false) →
      pyInt? yTok = some Y → pyInt? mTok = some M →
      parseLease (yTok ++ ' ' :: ("years".toList ++ ' ' :: (mTok ++ ' ' :: "months".toList)))
        = some (Y, M)) ∧
    (∀ (yTok : List Char) (Y : Int),
      yTok ≠ [] → (∀ c ∈ yTok, isPySpace c = false) → pyInt? yTok = some Y →
      parseLease (yTok ++ ' ' :: "years".toList) = some (Y, Y)) := by
  constructor
  · intro yTok mTok Y M hyne hmne hyw hmw hy hm
    have hyears : ∀ c ∈ "years".toList, isPySpace c = false := by decide
    have hmonths : ∀ c ∈ "months".toList, isPySpace c = false := by decide
    have hws := pySplitWS_four yTok "years".toList mTok "months".toList hyw hyears hmw hmonths
    have hsp := pySplitSp_four yTok "years".toList mTok "months".toList hyw hyears hmw hmonths
    have hye : yTok.isEmpty = false := by
      cases yTok with
      | nil => exact absurd rfl hyne
      | cons a l => rfl
    have hme : mTok.isEmpty = false := by
      cases mTok with
      | nil => exact absurd rfl hmne
      | cons a l => rfl
    have hfil : pySplitWS (yTok ++ ' ' :: ("years".toList ++ ' ' :: (mTok ++ ' ' :: "months".toList)))
        = [yTok, "years".toList, mTok, "months".toList] := by
      rw [pySplitWS, hws]
      simp [List.filter, hye, hme]
    simp only [parseLease, years_remaining, months_remaining]
    rw [hfil, hsp]
    simp [pyIdxNeg2, hy, hm]
  · intro yTok Y hyne hyw hy
    have hyears : ∀ c ∈ "years".toList, isPySpace c = false := by decide
    have hws := pySplitWS_two yTok "years".toList hyw hyears
    have hsp := pySplitSp_two yTok "years".toList hyw hyears
    have hye : yTok.isEmpty = false := by
      cases yTok with
      | nil => exact absurd rfl hyne
      | cons a l => rfl
    have hfil : pySplitWS (yTok ++ ' ' :: "years".toList) = [yTok, "years".toList] := by
      rw [pySplitWS, hws]
      simp [List.filter, hye]
    simp only [parseLease, years_remaining, months_remaining]
    rw [hfil, hsp]
    simp [pyIdxNeg2, hy]

/-- Witness for C2 (amended) at "61 years 4 months". -/
theorem c2_lease_parse_witness :
    parseLease ("61".toList ++ ' ' :: ("years".toList ++ ' ' :: ("4".toList ++ ' ' :: "months".toList)))
      = some (61, 4) :=
  c2_lease_parse.1 "61".toList "4".toList 61 4 (by decide) (by decide) (by decide)
    (by decide) (by decide) (by decide)

/--
C8 is refuted in both directions it quantifies: `"1 2 3 4 5"` has five
whitespace tokens (more than 4) yet parses successfully to years 1 /
months 4, and `" 99 "` has a single whitespace token (fewer than 2) yet
parses successfully to years 99 / months 99 (the single-space split is
`["", "99", ""]`, whose second-to-last field is `"99"`).
-/
theorem c8_counterexample :
    parseLease ("1 2 3 4 5".toList) = some (1, 4) ∧
    (pySplitWS ("1 2 3 4 5".toList)).length = 5 ∧
    parseLease (" 99 ".toList) = some (99, 99) ∧
    (pySplitWS (" 99 ".toList)).length = 1 := by decide

/--
C8 (amended): the lease parse succeeds exactly when the whitespace split
has a first token accepted by `int()` and the single-space split has at
least two fields with its second-to-last accepted by `int()`; failures are
exactly the complement (no token at all, a non-numeric first or
second-to-last token, or fewer than two single-space fields).  A token
count above 4 does not of itself cause failure.
-/
theorem c8_lease_failure_modes :
    (∀ s y m, parseLease s = some (y, m) ↔
      years_remaining s = some y ∧ months_remaining s = some m) ∧
    (∀ s y m, parseLease s = some (y, m) →
      1 ≤ (pySplitWS s).length ∧ 2 ≤ (pySplit (fun c => c == ' ') s).length) ∧
    (∀ s, pySplitWS s = [] → parseLease s = none) := by
  refine ⟨fun s y m => ?_, fun s y m h => ?_, fun s h => ?_⟩
  · constructor
    · intro h
      rcases Option.bind_eq_some.mp h with ⟨y1, hy1, h2⟩
      rcases Option.bind_eq_some.mp h2 with ⟨m1, hm1, h3⟩
      simp only [Option.some_inj, Prod.mk.injEq] at h3
      exact ⟨h3.1 ▸ hy1, h3.2 ▸ hm1⟩
    · intro ⟨hy, hm⟩
      simp [parseLease, hy, hm]
  · constructor
    · rcases Option.bind_eq_some.mp h with ⟨y1, hy1, _⟩
      rcases Option.bind_eq_some.mp hy1 with ⟨t, ht, _⟩
      cases hl : pySplitWS s with
      | nil => rw [hl] at ht; simp at ht
      | cons a l => simp [hl]
    · rcases Option.bind_eq_some.mp h with ⟨y1, hy1, h2⟩
      rcases Option.bind_eq_some.mp h2 with ⟨m1, hm1, _⟩
      rcases Option.bind_eq_some.mp hm1 with ⟨u, hu, _⟩
      by_contra hlen
      simp [pyIdxNeg2, Nat.lt_of_not_le] at hu hlen
      omega
  · simp [parseLease, years_remaining, h]

theorem digit_not_dash (c : Char) (h : isDigitC c = true) : (c == '-') = false := by
  simp only [isDigitC, Bool.and_eq_true, decide_eq_true_eq] at h
  simp only [beq_eq_false_iff_ne, ne_eq]
  intro hc
  subst hc
  simp at h

/--
C5: on every valid "YYYY-MM" sale-month string — four digits, a dash, a
two-digit month in 01..12, within the `pandas.Timestamp` range — the
training parse path (cell 15, `pd.to_datetime(..., format="%Y-%m")` with
`.dt.year`/`.dt.month`) and the prediction parse path (cell 43, the
`split("-")` lambdas) both produce exactly the two integer components of
the string, so the two paths agree on every valid input.
-/
theorem c5_month_parse_agree (yd md : List Char)
    (hylen : yd.length = 4) (hyd : ∀ c ∈ yd, isDigitC c = true)
    (hmlen : md.length = 2) (hmd : ∀ c ∈ md, isDigitC c = true)
    (hm1 : 1 ≤ digitsValN md) (hm12 : digitsValN md ≤ 12)
    (hts : tsOK (digitsValN yd) (digitsValN md) = true) :
    toDatetimeYM (yd ++ '-' :: md) =
      some ((digitsValN yd : Int), (digitsValN md : Int)) ∧
    predSaleYearMonth (yd ++ '-' :: md) =
      some ((digitsValN yd : Int), (digitsValN md : Int)) := by
  obtain ⟨a, b, c, d, rfl⟩ : ∃ a b c d, yd = [a, b, c, d] := by
    rcases yd with _ | ⟨a, _ | ⟨b, _ | ⟨c, _ | ⟨d, _ | ⟨e, tl⟩⟩⟩⟩⟩ <;> simp at hylen
    exact ⟨_, _, _, _, rfl⟩
  obtain ⟨m1, m2, rfl⟩ : ∃ m1 m2, md = [m1, m2] := by
    rcases md with _ | ⟨m1, _ | ⟨m2, _ | ⟨m3, tl2⟩⟩⟩ <;> simp at hmlen
    exact ⟨_, _, rfl⟩
  have ha : isDigitC a = true := hyd a (by simp)
  have hb : isDigitC b = true := hyd b (by simp)
  have hc : isDigitC c = true := hyd c (by simp)
  have hd : isDigitC d = true := hyd d (by simp)
  have hm1d : isDigitC m1 = true := hmd m1 (by simp)
  have hm2d : isDigitC m2 = true := hmd m2 (by simp)
  constructor
  · have hm1le : m1.toNat ≤ 49 := by
      have e1 : 48 ≤ m1.toNat ∧ m1.toNat ≤ 57 := by
        simpa [isDigitC] using hm1d
      have e2 : 48 ≤ m2.toNat ∧ m2.toNat ≤ 57 := by
        simpa [isDigitC] using hm2d
      have hv : digitsValN [m1, m2] = 10 * (m1.toNat - 48) + (m2.toNat - 48) := by
        simp [digitsValN]
      omega
    show toDatetimeYM (a :: b :: c :: d :: '-' :: [m1, m2]) = _
    simp only [toDatetimeYM]
    rw [if_pos ⟨trivial, ha, hb, hc, hd⟩, if_pos ⟨hm1d, hm2d, hm1le, hm1, hm12, hts⟩]
  · have hdig4 : ∀ x ∈ [a, b, c, d], isDigitC x = true := by
      intro x hx
      simp only [List.mem_cons, List.not_mem_nil, or_false] at hx
      rcases hx with rfl | rfl | rfl | rfl <;> assumption
    have hdig2 : ∀ x ∈ [m1, m2], isDigitC x = true := by
      intro x hx
      simp only [List.mem_cons, List.not_mem_nil, or_false] at hx
      rcases hx with rfl | rfl <;> assumption
    have hsp : pySplit (fun x => x == '-') ([a, b, c, d] ++ '-' :: [m1, m2]) =
        [[a, b, c, d], [m1, m2]] := by
      rw [pySplit_append _ [a, b, c, d] _ '-'
          (fun x hx => digit_not_dash x (hdig4 x hx)) (by decide),
        pySplit_no_sep _ [m1, m2] (fun x hx => digit_not_dash x (hdig2 x hx))]
    simp only [predSaleYearMonth]
    rw [hsp]
    have hy4 : pyInt? [a, b, c, d] = some ((digitsValN [a, b, c, d] : Int)) :=
      pyInt?_digits [a, b, c, d] (by simp) hdig4
    have hm2' : pyInt? [m1, m2] = some ((digitsValN [m1, m2] : Int)) :=
      pyInt?_digits [m1, m2] (by simp) hdig2
    simp [hy4, hm2']

/-- Witness for C5 at "2017-03". -/
theorem c5_month_parse_agree_witness :
    toDatetimeYM ("2017".toList ++ '-' :: "03".toList) = some (2017, 3) ∧
    predSaleYearMonth ("2017".toList ++ '-' :: "03".toList) = some (2017, 3) :=
  c5_month_parse_agree "2017".toList "03".toList (by decide) (by decide) (by decide)
    (by decide) (by decide) (by decide) (by decide)

theorem listIndex_eq_none_iff (v : String) (l : List String) :
    listIndex v l = none ↔ v ∉ l := by
  induction l with
  | nil => simp [listIndex]
  | cons c cs ih =>
    by_cases hcv : c = v
    · simp [listIndex, hcv]
    · rw [listIndex, if_neg hcv]
      simp only [Option.map_eq_none', ih, List.mem_cons]
      constructor
      · intro h hmem
        rcases hmem with he | hm
        · exact hcv he.symm
        · exact h hm
      · intro h hm
        exact h (Or.inr hm)

/--
C4: the ordinal encoder of cell 19 is a total, strictly monotonic
bijection from the 17 fixed storey-range labels (fixed in the source, not
learned from data) onto 0..16 assigned by position — "01 TO 03" first,
"49 TO 51" last — and its transform fails (sklearn `ValueError`, the
spec's UnknownCategoryError) on every string outside the vocabulary.
-/
theorem c4_ordinal_encoder :
    storey_cat.length = 17 ∧ storey_cat.Nodup ∧
    storey_cat.head? = some "01 TO 03" ∧ storey_cat.getLast? = some "49 TO 51" ∧
    (∀ i : Fin storey_cat.length, oeTransform (storey_cat.get i) = some i.val) ∧
    (∀ v, v ∉ storey_cat → oeTransform v = none) ∧
    (∀ i j : Fin storey_cat.length, i < j → ∀ x y,
      oeTransform (storey_cat.get i) = some x →
      oeTransform (storey_cat.get j) = some y → x < y) := by
  refine ⟨by decide, by decide, by decide, by decide, by decide,
    fun v hv => (listIndex_eq_none_iff v storey_cat).mpr hv, ?_⟩
  intro i j hij x y hx hy
  have hdec : ∀ i : Fin storey_cat.length, oeTransform (storey_cat.get i) = some i.val := by
    decide
  rw [hdec i] at hx
  rw [hdec j] at hy
  injection hx with hx1
  injection hy with hy1
  have hij' : i.val < j.val := hij
  omega

/-- Witness for C4: the third label encodes to 2, an out-of-vocabulary
band fails, and positions are strictly monotone on a concrete pair. -/
theorem c4_ordinal_encoder_witness :
    oeTransform "07 TO 09" = some 2 ∧ oeTransform "02 TO 04" = none :=
  ⟨c4_ordinal_encoder.2.2.2.2.1 ⟨2, by decide⟩,
   c4_ordinal_encoder.2.2.2.2.2.1 "02 TO 04" (by decide)⟩

theorem mem_insertSorted (x a : String) (l : List String) :
    a ∈ insertSorted x l ↔ a = x ∨ a ∈ l := by
  induction l with
  | nil => simp [insertSorted]
  | cons y ys ih =>
    rw [insertSorted]
    split
    · simp
    · simp only [List.mem_cons, ih]
      tauto

theorem nodup_insertSorted (x : String) (l : List String)
    (hx : x ∉ l) (hl : l.Nodup) : (insertSorted x l).Nodup := by
  induction l with
  | nil => simp [insertSorted]
  | cons y ys ih =>
    rw [insertSorted]
    split
    · exact List.Nodup.cons (by
        simp only [List.mem_cons]
        intro h
        rcases h with h | h
        · exact hx (h ▸ List.mem_cons_self y ys)
        · exact hx (List.mem_cons_of_mem y h)) hl
    · have hyys := List.nodup_cons.mp hl
      refine List.nodup_cons.mpr ⟨?_, ih (fun h => hx (List.mem_cons_of_mem y h)) hyys.2⟩
      rw [mem_insertSorted]
      intro h
      rcases h with h | h
      · exact hx (h ▸ List.mem_cons_self y ys)
      · exact hyys.1 h

theorem mem_foldr_insertSorted (a : String) (l : List String) :
    a ∈ l.foldr insertSorted [] ↔ a ∈ l := by
  induction l with
  | nil => simp
  | cons y ys ih => simp [mem_insertSorted, ih]

theorem fitVocab_mem (v : String) (l : List String) : v ∈ fitVocab l ↔ v ∈ l := by
  rw [fitVocab, mem_foldr_insertSorted, List.mem_dedup]

theorem fitVocab_nodup (l : List String) : (fitVocab l).Nodup := by
  rw [fitVocab]
  have h : ∀ m : List String, m.Nodup → (m.foldr insertSorted []).Nodup := by
    intro m hm
    induction m with
    | nil => simp
    | cons y ys ih =>
      have hy := List.nodup_cons.mp hm
      exact nodup_insertSorted y _ (fun hmem =>
        hy.1 ((mem_foldr_insertSorted y ys).mp hmem)) (ih hy.2)
  exact h l.dedup l.nodup_dedup

theorem indicator_counts_not_mem (l : List String) (v : String) (h : v ∉ l) :
    (l.map fun u => if u = v then (1 : Nat) else 0).count 1 = 0 ∧
    (l.map fun u => if u = v then (1 : Nat) else 0).count 0 = l.length := by
  induction l with
  | nil => simp
  | cons y ys ih =>
    have hyv : ¬(y = v) := fun he => h (he ▸ List.mem_cons_self y ys)
    have ih' := ih (fun hm => h (List.mem_cons_of_mem y hm))
    simp [List.count_cons, hyv, ih'.1, ih'.2]

theorem indicator_counts (l : List String) (v : String)
    (hnd : l.Nodup) (h : v ∈ l) :
    (l.map fun u => if u = v then (1 : Nat) else 0).count 1 = 1 ∧
    (l.map fun u => if u = v then (1 : Nat) else 0).count 0 = l.length - 1 := by
  induction l with
  | nil => simp at h
  | cons y ys ih =>
    have hy := List.nodup_cons.mp hnd
    rcases List.mem_cons.mp h with he | hm
    · have hnm : v ∉ ys := he ▸ hy.1
      have hc := indicator_counts_not_mem ys v hnm
      simp [List.count_cons, he.symm, hc.1, hc.2]
    · have hyv : ¬(y = v) := fun he2 => hy.1 (he2 ▸ hm)
      have ih' := ih hy.2 hm
      have hlen : 1 ≤ ys.length := List.length_pos.mpr (List.ne_nil_of_mem hm)
      constructor
      · simp [List.count_cons, hyv, ih'.1]
      · simp [List.count_cons, hyv, ih'.2]
        omega

theorem oheTransform_eq_none_iff (vocab : List String) (v : String) :
    oheTransform vocab v = none ↔ v ∉ vocab := by
  rw [oheTransform]
  split
  · simp only [reduceCtorEq, false_iff, Decidable.not_not]
    assumption
  · simp only [true_iff]
    assumption

theorem oheTransform_eq_some (vocab : List String) (v : String) (ind : List Nat)
    (h : oheTransform vocab v = some ind) :
    v ∈ vocab ∧ ind = vocab.map fun u => if u = v then 1 else 0 := by
  rw [oheTransform] at h
  split at h
  · exact ⟨by assumption, (Option.some_inj.mp h).symm⟩
  · exact absurd h (by simp)

/--
C6: for any column vocabulary fitted from observed values, transforming a
row whose value is in the vocabulary yields, for that source column,
exactly one indicator equal to 1 among the k indicator columns and 0 in
the other k-1.
-/
theorem c6_onehot_exactly_one (vals : List String) (v : String) (ind : List Nat)
    (ht : oheTransform (fitVocab vals) v = some ind) :
    ind.length = (fitVocab vals).length ∧
    ind.count 1 = 1 ∧ ind.count 0 = (fitVocab vals).length - 1 ∧
    ∀ x ∈ ind, x = 0 ∨ x = 1 := by
  obtain ⟨hmem, hind⟩ := oheTransform_eq_some _ _ _ ht
  subst hind
  have hc := indicator_counts (fitVocab vals) v (fitVocab_nodup vals) hmem
  refine ⟨by simp, hc.1, hc.2, ?_⟩
  intro x hx
  rcases List.mem_map.mp hx with ⟨u, _, hu⟩
  by_cases huv : u = v
  · right; rw [← hu]; simp [huv]
  · left; rw [← hu]; simp [huv]

/-- Witness for C6: vocabulary fitted from ["b", "a", "a"] is ["a", "b"];
transforming "a" gives the indicator vector [1, 0]. -/
theorem c6_onehot_exactly_one_witness :
    ([1, 0] : List Nat).count 1 = 1 ∧ ([1, 0] : List Nat).count 0 = 2 - 1 :=
  ⟨(c6_onehot_exactly_one ["b", "a", "a"] "a" [1, 0] (by decide)).2.1,
   (c6_onehot_exactly_one ["b", "a", "a"] "a" [1, 0] (by decide)).2.2.1⟩

/-- A small concrete training record used to instantiate theorems. -/
def sampleRaw : RawRecord :=
  { month := "2017-03", town := "ANG MO KIO", flat_type := "3 ROOM",
    block := "310", street_name := "ANG MO KIO AVE 1", storey_range := "01 TO 03",
    floor_area_sqm := 44, flat_model := "Improved", lease_commence_date := 1979,
    remaining_lease := "61 years 04 months", resale_price := 232000 }

/-- A one-record corpus and the state fitted on it. -/
def sampleCorpus : List RawRecord := [sampleRaw]

def sampleState : FittedOHE := fitOHE sampleCorpus

/-- The prediction-side copy of the sample record. -/
def samplePred : PredRecord :=
  { month := "2017-03", town := "ANG MO KIO", flat_type := "3 ROOM",
    block := "310", street_name := "ANG MO KIO AVE 1", storey_range := "01 TO 03",
    floor_area_sqm := 44, flat_model := "Improved", lease_commence_date := 1979,
    remaining_lease := "61 years 04 months" }

/--
C3: a categorical value of town / flat_type / flat_model outside the
one-hot vocabulary fixed at fit time, or a storey_range outside the fixed
ordinal vocabulary, makes transform fail (sklearn `ValueError`, the
spec's UnknownCategoryError), and it is the same transform function —
hence the same failure — on the training path (`engineerTrainRow`) and
the single-record prediction path (`engineerPredictRow`); no value
outside the vocabulary is ever silently encoded.
-/
theorem c3_unknown_category :
    (∀ vocab v, oheTransform vocab v = none ↔ v ∉ vocab) ∧
    (∀ v, oeTransform v = none ↔ v ∉ storey_cat) ∧
    (∀ st r, (engineerTrainRow st r).isSome = true →
      r.town ∈ st.townCats ∧ r.flat_type ∈ st.flatTypeCats ∧
      r.flat_model ∈ st.flatModelCats ∧ r.storey_range ∈ storey_cat) ∧
    (∀ st p, (engineerPredictRow st p).isSome = true →
      p.town ∈ st.townCats ∧ p.flat_type ∈ st.flatTypeCats ∧
      p.flat_model ∈ st.flatModelCats ∧ p.storey_range ∈ storey_cat) := by
  refine ⟨oheTransform_eq_none_iff, ?_, ?_, ?_⟩
  · intro v
    constructor
    · intro h
      exact (listIndex_eq_none_iff v storey_cat).mp h
    · intro h
      exact (listIndex_eq_none_iff v storey_cat).mpr h
  · intro st r h
    rw [Option.isSome_iff_exists] at h
    obtain ⟨fr, hfr⟩ := h
    rw [engineerTrainRow] at hfr
    rcases Option.bind_eq_some.mp hfr with ⟨ym, hym, h1⟩
    rcases Option.bind_eq_some.mp h1 with ⟨yr, hyr, h2⟩
    rcases Option.bind_eq_some.mp h2 with ⟨mr, hmr, h3⟩
    rcases Option.bind_eq_some.mp h3 with ⟨sv, hsv, h4⟩
    rcases Option.bind_eq_some.mp h4 with ⟨ti, hti, h5⟩
    rcases Option.bind_eq_some.mp h5 with ⟨fti, hfti, h6⟩
    rcases Option.bind_eq_some.mp h6 with ⟨fmi, hfmi, _⟩
    refine ⟨(oheTransform_eq_some _ _ _ hti).1, (oheTransform_eq_some _ _ _ hfti).1,
      (oheTransform_eq_some _ _ _ hfmi).1, ?_⟩
    by_contra hns
    have hnone : oeTransform _ = none := (listIndex_eq_none_iff _ _).mpr hns
    rw [hnone] at hsv
    exact Option.noConfusion hsv
  · intro st p h
    rw [Option.isSome_iff_exists] at h
    obtain ⟨fr, hfr⟩ := h
    rw [engineerPredictRow] at hfr
    rcases Option.bind_eq_some.mp hfr with ⟨ym, hym, h1⟩
    rcases Option.bind_eq_some.mp h1 with ⟨sv, hsv, h2⟩
    rcases Option.bind_eq_some.mp h2 with ⟨ti, hti, h3⟩
    rcases Option.bind_eq_some.mp h3 with ⟨fti, hfti, h4⟩
    rcases Option.bind_eq_some.mp h4 with ⟨fmi, hfmi, _⟩
    refine ⟨(oheTransform_eq_some _ _ _ hti).1, (oheTransform_eq_some _ _ _ hfti).1,
      (oheTransform_eq_some _ _ _ hfmi).1, ?_⟩
    by_contra hns
    have hnone : oeTransform _ = none := (listIndex_eq_none_iff _ _).mpr hns
    rw [hnone] at hsv
    exact Option.noConfusion hsv

/-- Witness for C3: an unknown town fails the one-hot transform, and a
successfully engineered sample record has all its categorical values
inside the fitted vocabularies. -/
theorem c3_unknown_category_witness :
    oheTransform ["ANG MO KIO"] "BEDOK" = none ∧
    "ANG MO KIO" ∈ sampleState.townCats :=
  ⟨(c3_unknown_category.1 ["ANG MO KIO"] "BEDOK").mpr (by decide),
   (c3_unknown_category.2.2.1 sampleState sampleRaw (by decide)).1⟩

/--
C1: before predict is invoked on the assembled prediction row, the count
assert of cell 46 and the column reindex of cell 47 together enforce
column-count and column-identity equality with the training feature
columns (the training dataframe's columns minus the `resale_price`
label): when the assembled columns are not exactly the training feature
set, the operation fails (AssertionError / KeyError, the spec's
SchemaMismatchError) and nothing reaches predict; when it passes, the row
handed to predict carries exactly the training columns, in exactly the
training order.
-/
theorem c1_schema_gate (dfCols flatCols : List String)
    (hdf : dfCols.Nodup) (hfl : flatCols.Nodup)
    (hlab : "resale_price" ∈ dfCols) :
    (∀ out, predictGate dfCols flatCols = some out →
      out = dfCols.erase "resale_price" ∧ flatCols.Perm out) ∧
    (¬ flatCols.Perm (dfCols.erase "resale_price") →
      predictGate dfCols flatCols = none) := by
  have key : ∀ out, predictGate dfCols flatCols = some out →
      out = dfCols.erase "resale_price" ∧ flatCols.Perm out := by
    intro out hout
    rw [predictGate] at hout
    by_cases hcount : dfCols.length = flatCols.length + 1
    · rw [if_pos hcount] at hout
      by_cases hall : ((dfCols.erase "resale_price").all fun c => flatCols.contains c) = true
      · rw [if_pos hall] at hout
        have hout' := Option.some_inj.mp hout
        subst hout'
        refine ⟨rfl, ?_⟩
        have hsub : dfCols.erase "resale_price" ⊆ flatCols := by
          intro c hc
          have := List.all_eq_true.mp hall c hc
          simpa using this
        have hnde : (dfCols.erase "resale_price").Nodup := hdf.erase _
        have hlen : (dfCols.erase "resale_price").length + 1 = dfCols.length :=
          List.length_erase_add_one hlab
        have hsp : List.Subperm (dfCols.erase "resale_price") flatCols :=
          List.subperm_of_subset hnde hsub
        have hperm : (dfCols.erase "resale_price").Perm flatCols :=
          hsp.perm_of_length_le (by omega)
        exact hperm.symm
      · rw [if_neg hall] at hout
        exact Option.noConfusion hout
    · rw [if_neg hcount] at hout
      exact Option.noConfusion hout
  refine ⟨key, ?_⟩
  intro hnp
  cases hg : predictGate dfCols flatCols with
  | none => rfl
  | some out =>
    obtain ⟨ho, hp⟩ := key out hg
    exact absurd (ho ▸ hp) hnp

/-- Witness for C1 on concrete column lists: the gate passes a permuted
column set and returns it in training order. -/
theorem c1_schema_gate_witness :
    ["sale_year", "floor_area_sqm"].Perm ["floor_area_sqm", "sale_year"] :=
  ((c1_schema_gate ["floor_area_sqm", "resale_price", "sale_year"]
      ["sale_year", "floor_area_sqm"] (by decide) (by decide) (by decide)).1
    ["floor_area_sqm", "sale_year"] (by decide)).2

/--
C7 is refuted: the notebook's `train_test_split` call (cell 38) passes no
`random_state`, so its randomness is not seeded; with the split
permutation drawn from the global RNG, two runs can hold out different
rows (here `[0]` versus `[3]` of a four-row corpus), so identical
coefficients and held-out MSE across fits are not guaranteed.
-/
theorem c7_counterexample :
    notebookTTS.random_state = none ∧
    ttsSplit notebookTTS [0, 1, 2, 3] 4 ≠ ttsSplit notebookTTS [3, 2, 1, 0] 4 := by
  exact ⟨rfl, by decide⟩

/--
C7 (amended): the split holds out `ceil(0.25 * n)` rows — `test_size=0.25`
is passed explicitly, which also equals sklearn's default when unset — but
the call sets no `random_state`: the row permutation comes from the global
unseeded RNG, and different draws produce different train/test partitions,
so reproducibility of coefficients and MSE across fits is not guaranteed
by the code.
-/
theorem c7_split_unseeded :
    notebookTTS.test_size = some quarter ∧ quarter = 1 / 4 ∧
    notebookTTS.random_state = none ∧
    (∀ call perm n, ttsSplit call perm n =
      (perm.take (nTest call n), perm.drop (nTest call n))) ∧
    nTest notebookTTS 4 = 1 ∧ nTest notebookTTS 500 = 125 ∧
    (∃ p q : List Nat, p.Perm q ∧ ttsSplit notebookTTS p 4 ≠ ttsSplit notebookTTS q 4) := by
  refine ⟨rfl, ?_, rfl, fun _ _ _ => rfl, by decide, by decide,
    ⟨[0, 1, 2, 3], [3, 2, 1, 0], by decide, by decide⟩⟩
  rw [quarter, Rat.mk'_eq_divInt]
  norm_num [Rat.divInt_eq_div]

/--
C9 is refuted: a null `remaining_lease` reaching cell 17 fails with an
untyped `AttributeError` (a float `NaN` has no `.split`), not with a
MissingValueError naming the offending column; and the only null-related
step, `df.isna().sum()` (cell 25), runs after the parse cells and raises
nothing.
-/
theorem c9_counterexample :
    engineerLeaseColumn [none] = Except.error PipeError.attributeError ∧
    isMissingValueErr (engineerLeaseColumn [none]) = false :=
  ⟨rfl, rfl⟩

/--
C9 (amended): the notebook never validates for nulls: no input makes the
lease-parsing pipeline raise a MissingValueError (nulls surface as an
`AttributeError` inside the parse lambda instead), and `df.isna().sum()`
is a pure count of nulls per column, an observation that cannot fail.
-/
theorem c9_no_missing_value_check :
    (∀ col, isMissingValueErr (engineerLeaseColumn col) = false) ∧
    (∀ col, isnaSum col = col.countP (fun v => v.isNone)) ∧
    engineerLeaseColumn [none] = Except.error PipeError.attributeError := by
  have cons_eq : ∀ (v : Option String) (rest : List (Option String)),
      engineerLeaseColumn (v :: rest) =
        match leaseCell v with
        | Except.error e => Except.error e
        | Except.ok p =>
          match engineerLeaseColumn rest with
          | Except.error e => Except.error e
          | Except.ok ps => Except.ok (p :: ps) := fun v rest => rfl
  refine ⟨?_, ?_, rfl⟩
  · intro col
    induction col with
    | nil => rfl
    | cons v rest ih =>
      rw [cons_eq]
      cases hv : leaseCell v with
      | error e =>
        have he : ∀ cols, e ≠ PipeError.missingValue cols := by
          cases v with
          | none =>
            rw [show leaseCell none = Except.error PipeError.attributeError from rfl] at hv
            injection hv with h
            subst h
            intro cols hc
            exact PipeError.noConfusion hc
          | some str =>
            rw [show leaseCell (some str) =
                (match parseLease str.toList with
                 | some pr => Except.ok pr
                 | none => Except.error PipeError.valueError) from rfl] at hv
            cases hp : parseLease str.toList with
            | some pr => rw [hp] at hv; exact absurd hv (by simp)
            | none =>
              rw [hp] at hv
              injection hv with h
              subst h
              intro cols hc
              exact PipeError.noConfusion hc
        cases e with
        | missingValue cols => exact absurd rfl (he cols)
        | attributeError => rfl
        | valueError => rfl
      | ok p =>
        cases hr : engineerLeaseColumn rest with
        | error e =>
          rw [hr] at ih
          exact ih
        | ok ps => rfl
  · intro col
    induction col with
    | nil => rfl
    | cons v rest ih =>
      cases v with
      | none => simp [isnaSum, List.countP_cons] at ih ⊢; omega
      | some s => simp [isnaSum, List.countP_cons] at ih ⊢; omega

theorem engineerTrainRow_frame (st : FittedOHE) (r : RawRecord) (fr : FeatureRow)
    (h : engineerTrainRow st r = some fr) :
    fr.resale_price = r.resale_price ∧ fr.floor_area_sqm = r.floor_area_sqm := by
  rw [engineerTrainRow] at h
  rcases Option.bind_eq_some.mp h with ⟨ym, _, h1⟩
  rcases Option.bind_eq_some.mp h1 with ⟨yr, _, h2⟩
  rcases Option.bind_eq_some.mp h2 with ⟨mr, _, h3⟩
  rcases Option.bind_eq_some.mp h3 with ⟨sv, _, h4⟩
  rcases Option.bind_eq_some.mp h4 with ⟨ti, _, h5⟩
  rcases Option.bind_eq_some.mp h5 with ⟨fti, _, h6⟩
  rcases Option.bind_eq_some.mp h6 with ⟨fmi, _, h7⟩
  have h8 := Option.some_inj.mp h7
  rw [← h8]
  exact ⟨rfl, rfl⟩

theorem engineerRows_frame (st : FittedOHE) (corpus : List RawRecord)
    (rows : List FeatureRow) (h : engineerRows st corpus = some rows) :
    rows.map FeatureRow.resale_price = corpus.map RawRecord.resale_price ∧
    rows.map FeatureRow.floor_area_sqm = corpus.map RawRecord.floor_area_sqm := by
  induction corpus generalizing rows with
  | nil =>
    rw [engineerRows] at h
    have h' := Option.some_inj.mp h
    subst h'
    exact ⟨rfl, rfl⟩
  | cons r rs ih =>
    rw [engineerRows] at h
    rcases Option.bind_eq_some.mp h with ⟨fr, hfr, h1⟩
    rcases Option.bind_eq_some.mp h1 with ⟨frs, hfrs, h2⟩
    have h3 := Option.some_inj.mp h2
    subst h3
    have hrow := engineerTrainRow_frame st r fr hfr
    have hrest := ih frs hfrs
    simp only [List.map_cons]
    exact ⟨by rw [hrow.1, hrest.1], by rw [hrow.2, hrest.2]⟩

/--
C10: the feature pipeline passes `floor_area_sqm` through numerically
unchanged — in any successfully engineered corpus, each row's
`floor_area_sqm` equals the raw record's value — and the `resale_price`
label column that cell 38 separates out equals the corpus's resale
prices in the original row order, untouched by the encoding and drop
steps.
-/
theorem c10_frame (corpus : List RawRecord) (rows : List FeatureRow)
    (h : buildFeatures corpus = some rows) :
    rows.map FeatureRow.resale_price = corpus.map RawRecord.resale_price ∧
    rows.map FeatureRow.floor_area_sqm = corpus.map RawRecord.floor_area_sqm ∧
    rows.length = corpus.length := by
  rw [buildFeatures] at h
  have hf := engineerRows_frame (fitOHE corpus) corpus rows h
  refine ⟨hf.1, hf.2, ?_⟩
  have := congrArg List.length hf.1
  simpa using this

/-- The engineered sample corpus, recovered from the pipeline itself. -/
def sampleRows : List FeatureRow := (buildFeatures sampleCorpus).getD []

/-- Witness for C10 on the one-record sample corpus. -/
theorem c10_frame_witness :
    sampleRows.map FeatureRow.resale_price = sampleCorpus.map RawRecord.resale_price ∧
    sampleRows.map FeatureRow.floor_area_sqm = sampleCorpus.map RawRecord.floor_area_sqm ∧
    sampleRows.length = sampleCorpus.length :=
  c10_frame sampleCorpus sampleRows rfl

/-- Witness for C8 (amended) at "61 years 04 months". -/
theorem c8_lease_failure_modes_witness :
    1 ≤ (pySplitWS ("61 years 04 months".toList)).length ∧
    2 ≤ (pySplit (fun c => c == ' ') ("61 years 04 months".toList)).length :=
  c8_lease_failure_modes.2.1 ("61 years 04 months".toList) 61 4 (by decide)
